import Mathlib

/-!
# Verification of the `tough` TUF client core (`src/tough/src/lib.rs`)

A shallow embedding of the metadata update workflow of the `tough` library:
the four role loaders (`load_root`, `load_timestamp`, `load_snapshot`,
`load_targets`), the delegation traversal (`load_delegations`), the time
oracle (`system_time`, `check_expired`), the earliest-expiration bookkeeping
of `Repository::load`, and the expiration gate of `Repository::read_target`.

Modelling choices, documented once here:

* Machine integers (`u64`, `NonZeroU64` versions) become `Nat`; none of the
  operations used by the embedded code can overflow in the source's range
  checks, and the source does only comparisons and additions on them.
* `DateTime<Utc>` instants become `Int` (only the order matters).
* SHA-256 digests and cryptographic keys are abstract and become `Nat`.
* The external collaborators that are not part of `src/` — the transport,
  the bounded fetcher `fetch.rs`, the `url` crate, and the schema crate's
  signature-verification primitive `verify_role` — are passed as explicit
  parameters: fetching is a function from the request to a `FetchOutcome`
  (transport/bound error, unparsable bytes, or a parsed value), and
  signature verification is a `Bool`-valued oracle.  The spec (§1, §6)
  declares these to be external interfaces of the core.
* The datastore is an association list from the short fixed filenames to
  typed file contents; a present file either parses as the type the source
  requests (`Option.some` payload) or does not (`Option.none` payload),
  mirroring `if let Some(Ok(x)) = datastore.reader(name)?.map(parse)`.
  The source's I/O errors on the datastore are not modelled.
* The root-update loop and the delegation traversal are bounded by an
  explicit fuel argument to make the recursion structural.  For the root
  walk, `load_root` supplies `maxRootUpdates + 1`, which exceeds the number
  of iterations the in-loop `MaxUpdatesExceeded` bound check ever admits,
  and the fuel-exhausted branch repeats that check's error; the lemma
  `load_root_loop_fuel_irrelevant` proves the chosen fuel does not matter.
  For delegations the source's recursion is unbounded (the spec notes the
  depth SHOULD be bounded); fuel exhaustion is the distinguished
  `Error.RecursionLimit`.
-/

namespace Tough

/-- The closed set of top-level TUF role kinds (`schema::RoleType`). -/
inductive RoleType where
  | Root
  | Timestamp
  | Snapshot
  | Targets
deriving DecidableEq, Repr

/-- `ExpirationEnforcement` (lib.rs lines 66-73): whether expiration checks run. -/
inductive ExpirationEnforcement where
  | Safe
  | Unsafe
deriving DecidableEq, Repr

/-- `impl From<bool> for ExpirationEnforcement` (lib.rs lines 82-90). -/
def ExpirationEnforcement.ofBool (b : Bool) : ExpirationEnforcement :=
  if b then .Safe else .Unsafe

/-- `impl From<ExpirationEnforcement> for bool` (lib.rs lines 92-96). -/
def ExpirationEnforcement.toBool (ee : ExpirationEnforcement) : Bool :=
  ee = ExpirationEnforcement.Safe

/-- Modelled from the spec (§4.1): kinds of transport errors; the transport
implementation is not under `src/`.  The spec lists at least `FileNotFound`,
`Other` and a generic failure kind. -/
inductive TransportErrorKind where
  | FileNotFound
  | Failure
  | Other
deriving DecidableEq, Repr

/-- Modelled from the spec (§4.2): the errors the bounded fetch primitives
(`fetch.rs`, not under `src/`) can produce — a transport error of some kind,
a size-cap overrun naming the specifier label, or a digest mismatch from
`fetch_sha256`. -/
inductive FetchErr where
  | transport (kind : TransportErrorKind)
  | maxSizeExceeded (max : Nat) (specifier : String)
  | digestMismatch
deriving DecidableEq, Repr

/-- The outcome of one bounded fetch followed by `serde_json::from_reader`:
the fetch itself fails, the fetched bytes do not parse as the expected
metadata type, or a parsed value is obtained. -/
inductive FetchOutcome (α : Type) where
  | err (e : FetchErr)
  | unparsable
  | ok (value : α)
deriving DecidableEq, Repr

/-- The error kinds of `error.rs` reachable from the embedded code, with the
fields the source attaches to them.  `RecursionLimit` is not a source error:
it marks exhaustion of the fuel bounding the delegation recursion (see the
module comment). -/
inductive Error where
  | ParseTrustedMetadata
  | VerifyTrustedMetadata
  | MaxUpdatesExceeded (maxRootUpdates : Nat)
  | ParseMetadata (role : RoleType)
  | VerifyMetadata (role : RoleType)
  | OlderMetadata (role : RoleType) (currentVersion newVersion : Nat)
  | ExpiredMetadata (role : RoleType)
  | SystemTimeSteppedBackward (sysTime latestKnownTime : Int)
  | MetaMissing (file : String) (role : RoleType)
  | VersionMismatch (role : RoleType) (fetched expected : Nat)
  | RoleNotInMeta (name : String)
  | DelegatedRolesNotConsistent (name : String)
  | InvalidPath
  | Transport (err : FetchErr)
  | RecursionLimit
deriving DecidableEq, Repr

/-- `Signed<Root>` restricted to the fields the embedded code reads:
`version` (a `NonZeroU64`), `expires`, `consistent_snapshot`, and the key
sets `root.signed.keys(RoleType::Timestamp)` / `keys(RoleType::Snapshot)`
used by the fast-forward-recovery check (lib.rs lines 521-531, 643-653).
Keys are abstract `Nat`s in the order the source iterates them. -/
structure SignedRoot where
  version : Nat
  expires : Int
  consistentSnapshot : Bool
  timestampKeys : List Nat
  snapshotKeys : List Nat
deriving DecidableEq, Repr

/-- An entry of `Timestamp::meta` (`schema`): for `"snapshot.json"` the
`length` and `hashes.sha256` fields are mandatory (the source reads them
directly at lib.rs lines 770-772). -/
structure TimestampMeta where
  version : Nat
  length : Nat
  sha256 : Nat
deriving DecidableEq, Repr

/-- `Signed<Timestamp>` restricted to the fields the embedded code reads. -/
structure SignedTimestamp where
  version : Nat
  expires : Int
  meta : List (String × TimestampMeta)
deriving DecidableEq, Repr

/-- An entry of `Snapshot::meta`: `length` and `hashes` are optional for
targets entries (the source matches on them at lib.rs lines 905-924). -/
structure SnapshotMeta where
  version : Nat
  length : Option Nat
  sha256 : Option Nat
deriving DecidableEq, Repr

/-- `Signed<Snapshot>` restricted to the fields the embedded code reads. -/
structure SignedSnapshot where
  version : Nat
  expires : Int
  meta : List (String × SnapshotMeta)
deriving DecidableEq, Repr

mutual
/-- `Signed<schema::Targets>` restricted to the fields the embedded code
reads: `version`, `expires` and the optional `delegations` record.  The
`targets` map itself (target name to length/digests) is read only by
`read_target`'s lookup, which lives in the schema crate and is outside the
embedded core. -/
inductive STargets : Type where
  | mk (version : Nat) (expires : Int) (delegations : Option Delegations) : STargets

/-- `schema::Delegations` restricted to its ordered list of delegated
roles; the key set and thresholds are consulted only through the abstract
verification oracle. -/
inductive Delegations : Type where
  | mk (roles : List DelegatedRole) : Delegations

/-- `schema::DelegatedRole`: the role name and, after loading, the attached
verified `Signed<Targets>` payload (`targets : Option<Signed<Targets>>`). -/
inductive DelegatedRole : Type where
  | mk (name : String) (targets : Option STargets) : DelegatedRole
end

/-- Accessor for `STargets.version`. -/
def STargets.version : STargets → Nat
  | .mk v _ _ => v

/-- Accessor for `STargets.expires`. -/
def STargets.expires : STargets → Int
  | .mk _ e _ => e

/-- Accessor for `STargets.delegations`. -/
def STargets.delegations : STargets → Option Delegations
  | .mk _ _ d => d

/-- Functional update of the `delegations` field. -/
def STargets.withDelegations : STargets → Option Delegations → STargets
  | .mk v e _, d => .mk v e d

/-- Accessor for `Delegations.roles`. -/
def Delegations.roles : Delegations → List DelegatedRole
  | .mk rs => rs

/-- Accessor for `DelegatedRole.name`. -/
def DelegatedRole.name : DelegatedRole → String
  | .mk n _ => n

/-- Accessor for `DelegatedRole.targets`. -/
def DelegatedRole.targets : DelegatedRole → Option STargets
  | .mk _ t => t

/-- Functional update of the `targets` field of a delegated role. -/
def DelegatedRole.withTargets : DelegatedRole → Option STargets → DelegatedRole
  | .mk n _, t => .mk n t

/-- The typed content of one datastore file.  A `some` payload is a file
whose bytes parse as the given metadata type; a `none` payload is a present
but unparsable file. -/
inductive DSFile where
  | timeFile (t : Option Int)
  | timestampFile (t : Option SignedTimestamp)
  | snapshotFile (s : Option SignedSnapshot)
  | targetsFile (t : Option STargets)

/-- The datastore (`datastore.rs`): a flat directory of short fixed-form
filenames with whole-file atomic replacement. -/
structure Datastore where
  files : List (String × DSFile)

/-- `Datastore::reader(name)`: the file's content if present. -/
def Datastore.reader (ds : Datastore) (name : String) : Option DSFile :=
  ds.files.lookup name

/-- `Datastore::create(name, value)`: atomic whole-file replacement. -/
def Datastore.create (ds : Datastore) (name : String) (file : DSFile) : Datastore :=
  ⟨(name, file) :: ds.files.filter fun p => p.1 ≠ name⟩

/-- `Datastore::remove(name)`: idempotent removal; a missing file is not an
error. -/
def Datastore.remove (ds : Datastore) (name : String) : Datastore :=
  ⟨ds.files.filter fun p => p.1 ≠ name⟩

/-- Parse a datastore file as `Signed<Timestamp>` the way
`serde_json::from_reader::<_, Signed<Timestamp>>` would. -/
def DSFile.asTimestamp : DSFile → Option SignedTimestamp
  | .timestampFile t => t
  | _ => none

/-- Parse a datastore file as `Signed<Snapshot>`. -/
def DSFile.asSnapshot : DSFile → Option SignedSnapshot
  | .snapshotFile s => s
  | _ => none

/-- Parse a datastore file as `Signed<Targets>`. -/
def DSFile.asTargets : DSFile → Option STargets
  | .targetsFile t => t
  | _ => none

/-- Parse a datastore file as a `DateTime<Utc>` instant. -/
def DSFile.asTime : DSFile → Option Int
  | .timeFile t => t
  | _ => none

/-- `system_time(datastore)` (lib.rs lines 450-472): samples the wall clock
(`now`, passed explicitly), checks it against `latest_known_time.json` when
that file exists and parses, and on success writes the sample back.  The
sampled clock is the `sys_time` the source obtains from `Utc::now()`. -/
def system_time (now : Int) (ds : Datastore) : Except Error (Int × Datastore) :=
  match (ds.reader "latest_known_time.json").bind DSFile.asTime with
  | some latestKnownTime =>
    if now ≥ latestKnownTime then
      .ok (now, ds.create "latest_known_time.json" (.timeFile (some now)))
    else
      .error (.SystemTimeSteppedBackward now latestKnownTime)
  | none => .ok (now, ds.create "latest_known_time.json" (.timeFile (some now)))

/-- `check_expired(datastore, role)` (lib.rs lines 476-482): requires
`system_time(datastore)? <= role.expires()`, else `ExpiredMetadata`. -/
def check_expired (now : Int) (ds : Datastore) (expires : Int) (role : RoleType) :
    Except Error Datastore :=
  match system_time now ds with
  | .error e => .error e
  | .ok (t, ds1) =>
    if t ≤ expires then .ok ds1 else .error (.ExpiredMetadata role)

/-- The expiration gate of `Repository::read_target` (lib.rs lines 407-416):
under `Safe` enforcement require `system_time(datastore)? <
earliest_expiration` (strictly), else `ExpiredMetadata` naming the
earliest-expiring role; under `Unsafe` the check is skipped. -/
def read_target_check (enforcement : ExpirationEnforcement) (now : Int)
    (earliestExpiration : Int) (earliestExpirationRole : RoleType)
    (ds : Datastore) : Except Error Datastore :=
  if enforcement = ExpirationEnforcement.Safe then
    match system_time now ds with
    | .error e => .error e
    | .ok (t, ds1) =>
      if t < earliestExpiration then .ok ds1
      else .error (.ExpiredMetadata earliestExpirationRole)
  else .ok ds

/-- The root-update loop of `load_root` (lib.rs lines 538-627).  One
iteration: the step-1.2 bound check (`ensure!` at lines 549-552), the fetch
of `{N+1}.root.json` where any fetch error exits the loop normally (line
563), parse, verification of the candidate under both the trusted root and
itself (lines 576-586), the rollback check (lines 596-603), the equal-version
loop exit (lines 611-613), and acceptance of the candidate (line 621).
`verify r t` is the oracle for `r.signed.verify_role(&t)`; `fetchRoot v` is
the fetch-and-parse of version `v`.  The fuel only makes the recursion
structural (see the module comment). -/
def load_root_loop (verify : SignedRoot → SignedRoot → Bool)
    (fetchRoot : Nat → FetchOutcome SignedRoot)
    (originalRootVersion maxRootUpdates : Nat) :
    Nat → SignedRoot → Except Error SignedRoot
  | 0, _ => .error (.MaxUpdatesExceeded maxRootUpdates)
  | fuel + 1, root =>
    if root.version < originalRootVersion + maxRootUpdates then
      match fetchRoot (root.version + 1) with
      | .err _ => .ok root
      | .unparsable => .error (.ParseMetadata .Root)
      | .ok newRoot =>
        if verify root newRoot then
          if verify newRoot newRoot then
            if root.version ≤ newRoot.version then
              if root.version = newRoot.version then .ok root
              else load_root_loop verify fetchRoot originalRootVersion maxRootUpdates fuel newRoot
            else .error (.OlderMetadata .Root root.version newRoot.version)
          else .error (.VerifyMetadata .Root)
        else .error (.VerifyMetadata .Root)
    else .error (.MaxUpdatesExceeded maxRootUpdates)

/-- `load_root` (lib.rs lines 499-662): parse and self-verify the trusted
root, remember the original version and Timestamp/Snapshot key sets, run the
update loop, check expiration when enforcement is `Safe`, and delete the
stored timestamp and snapshot files when either key set changed
(fast-forward recovery).  `trustedRoot` is the outcome of
`serde_json::from_reader` on the caller-supplied bytes. -/
def load_root (verify : SignedRoot → SignedRoot → Bool)
    (fetchRoot : Nat → FetchOutcome SignedRoot)
    (maxRootUpdates : Nat)
    (trustedRoot : Option SignedRoot)
    (expirationEnforcement : ExpirationEnforcement)
    (now : Int) (ds : Datastore) : Except Error (SignedRoot × Datastore) :=
  match trustedRoot with
  | none => .error .ParseTrustedMetadata
  | some root =>
    if verify root root then
      let originalRootVersion := root.version
      let originalTimestampKeys := root.timestampKeys
      let originalSnapshotKeys := root.snapshotKeys
      match load_root_loop verify fetchRoot originalRootVersion maxRootUpdates
          (maxRootUpdates + 1) root with
      | .error e => .error e
      | .ok finalRoot =>
        match (if expirationEnforcement = ExpirationEnforcement.Safe then
                check_expired now ds finalRoot.expires .Root
              else .ok ds) with
        | .error e => .error e
        | .ok ds1 =>
          let ds2 :=
            if originalTimestampKeys ≠ finalRoot.timestampKeys
                ∨ originalSnapshotKeys ≠ finalRoot.snapshotKeys then
              (ds1.remove "timestamp.json").remove "snapshot.json"
            else ds1
          .ok (finalRoot, ds2)
    else .error .VerifyTrustedMetadata

/-- The rollback check of `load_timestamp` (lib.rs lines 705-719), 2.2 of
the TUF workflow: when the stored `timestamp.json` parses and verifies under
the current trusted root, require `old.version <= new.version`, else
`OlderMetadata{Timestamp}`; an unparsable or unverifiable stored file is
silently ignored. -/
def load_timestamp_rollback (verify : SignedTimestamp → Bool)
    (timestamp : SignedTimestamp) (ds : Datastore) : Except Error Unit :=
  match (ds.reader "timestamp.json").bind DSFile.asTimestamp with
  | some oldTimestamp =>
    if verify oldTimestamp then
      if oldTimestamp.version ≤ timestamp.version then .ok ()
      else .error (.OlderMetadata .Timestamp oldTimestamp.version timestamp.version)
    else .ok ()
  | none => .ok ()

/-- `load_timestamp` (lib.rs lines 665-733): fetch `timestamp.json` with
`fetch_max_size(…, max_timestamp_size, "max_timestamp_size argument")`,
parse, verify under the trusted root's Timestamp keys, run the rollback
check against the stored `timestamp.json`, check expiration when `Safe`,
and persist.  `verify t` is the oracle for `root.signed.verify_role(&t)`
with the trusted root fixed; `fetchTimestamp` is the fetch-and-parse
outcome, the size cap being enforced inside the bounded fetch. -/
def load_timestamp (verify : SignedTimestamp → Bool)
    (fetchTimestamp : FetchOutcome SignedTimestamp)
    (now : Int) (expirationEnforcement : ExpirationEnforcement)
    (ds : Datastore) : Except Error (SignedTimestamp × Datastore) :=
  match fetchTimestamp with
  | .err e => .error (.Transport e)
  | .unparsable => .error (.ParseMetadata .Timestamp)
  | .ok timestamp =>
    if verify timestamp then
      match load_timestamp_rollback verify timestamp ds with
      | .error e => .error e
      | .ok _ =>
        match (if expirationEnforcement = ExpirationEnforcement.Safe then
                check_expired now ds timestamp.expires .Timestamp
              else .ok ds) with
        | .error e => .error e
        | .ok ds1 =>
          .ok (timestamp, ds1.create "timestamp.json" (.timestampFile (some timestamp)))
    else .error (.VerifyMetadata .Timestamp)

/-- The rollback section of `load_snapshot` (lib.rs lines 804-853), 3.3 of
the TUF workflow: when the stored `snapshot.json` parses and verifies under
the current trusted root, require `old.version <= new.version` (else
`OlderMetadata{Snapshot}`) and, when the old snapshot describes
`targets.json`, require the new snapshot to describe it too (else
`MetaMissing{targets.json, Snapshot}`) with
`old_targets_meta.version <= targets_meta.version` (else
`OlderMetadata{Targets}`). -/
def load_snapshot_rollback (verify : SignedSnapshot → Bool)
    (snapshot : SignedSnapshot) (ds : Datastore) : Except Error Unit :=
  match (ds.reader "snapshot.json").bind DSFile.asSnapshot with
  | some oldSnapshot =>
    if verify oldSnapshot then
      if oldSnapshot.version ≤ snapshot.version then
        match oldSnapshot.meta.lookup "targets.json" with
        | some oldTargetsMeta =>
          match snapshot.meta.lookup "targets.json" with
          | none => .error (.MetaMissing "targets.json" .Snapshot)
          | some targetsMeta =>
            if oldTargetsMeta.version ≤ targetsMeta.version then .ok ()
            else .error (.OlderMetadata .Targets oldTargetsMeta.version targetsMeta.version)
        | none => .ok ()
      else .error (.OlderMetadata .Snapshot oldSnapshot.version snapshot.version)
    else .ok ()
  | none => .ok ()

/-- `load_snapshot` (lib.rs lines 736-867): locate the snapshot descriptor
in `timestamp.meta["snapshot.json"]` (else `MetaMissing`), pick the
consistent-snapshot filename, fetch with `fetch_sha256` against the
descriptor's length and SHA-256, parse, require the parsed version to equal
the descriptor's (3.1), verify under the trusted root's Snapshot keys (3.2),
run the rollback checks (3.3) against the stored `snapshot.json`, check
expiration when `Safe`, and persist.  The rollback section compares versions
and, when both old and new snapshots describe `targets.json`, their
`targets.json` versions; it consults no other filename of the old snapshot's
meta map.  `fetchSnapshot path length sha256` is the fetch-and-parse
outcome of `fetch_sha256`. -/
def load_snapshot (verify : SignedSnapshot → Bool)
    (fetchSnapshot : String → Nat → Nat → FetchOutcome SignedSnapshot)
    (consistentSnapshot : Bool)
    (timestamp : SignedTimestamp)
    (now : Int) (expirationEnforcement : ExpirationEnforcement)
    (ds : Datastore) : Except Error (SignedSnapshot × Datastore) :=
  match timestamp.meta.lookup "snapshot.json" with
  | none => .error (.MetaMissing "snapshot.json" .Timestamp)
  | some snapshotMeta =>
    let path := if consistentSnapshot then
        Nat.repr snapshotMeta.version ++ ".snapshot.json"
      else "snapshot.json"
    match fetchSnapshot path snapshotMeta.length snapshotMeta.sha256 with
    | .err e => .error (.Transport e)
    | .unparsable => .error (.ParseMetadata .Snapshot)
    | .ok snapshot =>
      if snapshot.version = snapshotMeta.version then
        if verify snapshot then
          match load_snapshot_rollback verify snapshot ds with
          | .error e => .error e
          | .ok _ =>
            match (if expirationEnforcement = ExpirationEnforcement.Safe then
                    check_expired now ds snapshot.expires .Snapshot
                  else .ok ds) with
            | .error e => .error e
            | .ok ds1 =>
              .ok (snapshot, ds1.create "snapshot.json" (.snapshotFile (some snapshot)))
        else .error (.VerifyMetadata .Snapshot)
      else .error (.VersionMismatch .Snapshot snapshot.version snapshotMeta.version)

/-- Which bounded-fetch primitive a fetch used: `fetch_max_size` or
`fetch_sha256`. -/
inductive FetchKind where
  | maxSize
  | sha256
deriving DecidableEq, Repr

/-- A record of one bounded-fetch call performed by the targets loader or
the delegation traversal: the primitive, the metadata filename, the byte cap
passed as `max`/`size`, and the specifier label the overrun error would
name.  The embedding returns the list of these calls so that theorems can
quantify over every fetch the traversal performs. -/
structure FetchCall where
  kind : FetchKind
  path : String
  cap : Nat
  specifier : String
deriving DecidableEq, Repr

/-- Replacement insert for the `HashMap<String, Option<Signed<Targets>>>`
of `load_delegations`. -/
def mapInsert (m : List (String × Option STargets)) (k : String)
    (v : Option STargets) : List (String × Option STargets) :=
  (k, v) :: m.filter fun p => p.1 ≠ k

/-- `HashMap::remove`: the removed value and the remaining map when the key
is present. -/
def mapRemove (m : List (String × Option STargets)) (k : String) :
    Option (Option STargets × List (String × Option STargets)) :=
  match m.lookup k with
  | none => none
  | some v => some (v, m.filter fun p => p.1 ≠ k)

/-- The filename of a delegated role's metadata (lib.rs lines 1025-1029):
`{version}.{name}.json` under consistent snapshots, else `{name}.json`. -/
def delegated_role_path (consistentSnapshot : Bool) (version : Nat)
    (name : String) : String :=
  if consistentSnapshot then Nat.repr version ++ "." ++ name ++ ".json"
  else name ++ ".json"

/-- The first loop of `load_delegations` (lib.rs lines 1015-1069): for each
delegated role in the parent's order, locate `snapshot.meta["{name}.json"]`
(else `RoleNotInMeta`), pick the consistent-snapshot filename, fetch with
`fetch_max_size(…, max_targets_size, "max_targets_size parameter")`, parse
as `Signed<Targets>`, verify against the parent delegation's keys by role
name, require the version to equal the snapshot entry's, check the role's
own delegation path patterns (`verify_paths`, else `InvalidPath`), persist
the file under its filename, and insert the payload into the map.  The map,
the list of fetch calls, and the datastore are threaded as accumulators in
loop order. -/
def fetch_delegated_roles
    (verifyDelegation : Delegations → STargets → String → Bool)
    (verifyPathsOk : Delegations → Bool)
    (fetchRole : String → FetchOutcome STargets)
    (snapshot : SignedSnapshot) (consistentSnapshot : Bool)
    (maxTargetsSize : Nat) (delegation : Delegations) :
    List DelegatedRole → List (String × Option STargets) → List FetchCall →
    Datastore →
    Except Error (List (String × Option STargets) × List FetchCall × Datastore)
  | [], fetched, calls, ds => .ok (fetched, calls, ds)
  | role :: rest, fetched, calls, ds =>
    match snapshot.meta.lookup (role.name ++ ".json") with
    | none => .error (.RoleNotInMeta role.name)
    | some roleMeta =>
      match fetchRole (delegated_role_path consistentSnapshot roleMeta.version role.name) with
      | .err e => .error (.Transport e)
      | .unparsable => .error (.ParseMetadata .Targets)
      | .ok fetchedRole =>
        if verifyDelegation delegation fetchedRole role.name then
          if fetchedRole.version = roleMeta.version then
            if (match fetchedRole.delegations with
                | some d => verifyPathsOk d
                | none => true) then
              fetch_delegated_roles verifyDelegation verifyPathsOk fetchRole snapshot
                consistentSnapshot maxTargetsSize delegation rest
                (mapInsert fetched role.name (some fetchedRole))
                (calls ++ [⟨.maxSize,
                  delegated_role_path consistentSnapshot roleMeta.version role.name,
                  maxTargetsSize, "max_targets_size parameter"⟩])
                (ds.create (delegated_role_path consistentSnapshot roleMeta.version role.name)
                  (.targetsFile (some fetchedRole)))
            else .error .InvalidPath
          else .error (.VersionMismatch .Targets fetchedRole.version roleMeta.version)
        else .error (.VerifyMetadata .Targets)

mutual
/-- `load_delegations` (lib.rs lines 1004-1092): fetch and verify every
direct delegated role of `delegation` (first loop), then attach each
fetched payload to its in-memory delegated-role entry and recurse into the
payload's own delegations (second loop).  The result is the delegation
record with attached payloads, the fetch calls performed in traversal
order, and the updated datastore.  Fuel bounds the recursion depth (the
source's recursion is unbounded); every recursive call consumes one unit. -/
def load_delegations
    (verifyDelegation : Delegations → STargets → String → Bool)
    (verifyPathsOk : Delegations → Bool)
    (fetchRole : String → FetchOutcome STargets)
    (snapshot : SignedSnapshot) (consistentSnapshot : Bool)
    (maxTargetsSize : Nat) :
    Nat → Delegations → Datastore →
    Except Error (Delegations × List FetchCall × Datastore)
  | 0, _, _ => .error .RecursionLimit
  | fuel + 1, delegation, ds =>
    match fetch_delegated_roles verifyDelegation verifyPathsOk fetchRole snapshot
        consistentSnapshot maxTargetsSize delegation delegation.roles [] [] ds with
    | .error e => .error e
    | .ok (fetched, calls, ds1) =>
      match attach_delegated_roles verifyDelegation verifyPathsOk fetchRole snapshot
          consistentSnapshot maxTargetsSize fuel fetched delegation.roles ds1 with
      | .error e => .error e
      | .ok (roles1, calls1, ds2) => .ok (.mk roles1, calls ++ calls1, ds2)

/-- The second loop of `load_delegations` (lib.rs lines 1071-1090): remove
each role's payload from the map (a missing entry — possible only when two
roles share a name — is `DelegatedRolesNotConsistent`), attach it, and when
the payload itself declares delegations, recurse into them. -/
def attach_delegated_roles
    (verifyDelegation : Delegations → STargets → String → Bool)
    (verifyPathsOk : Delegations → Bool)
    (fetchRole : String → FetchOutcome STargets)
    (snapshot : SignedSnapshot) (consistentSnapshot : Bool)
    (maxTargetsSize : Nat) :
    Nat → List (String × Option STargets) → List DelegatedRole → Datastore →
    Except Error (List DelegatedRole × List FetchCall × Datastore)
  | 0, _, _, _ => .error .RecursionLimit
  | _ + 1, _, [], ds => .ok ([], [], ds)
  | fuel + 1, fetched, role :: rest, ds =>
    match mapRemove fetched role.name with
    | none => .error (.DelegatedRolesNotConsistent role.name)
    | some (payload, fetched1) =>
      match payload with
      | some t =>
        match t.delegations with
        | some d =>
          match load_delegations verifyDelegation verifyPathsOk fetchRole snapshot
              consistentSnapshot maxTargetsSize fuel d ds with
          | .error e => .error e
          | .ok (d1, calls, ds1) =>
            match attach_delegated_roles verifyDelegation verifyPathsOk fetchRole snapshot
                consistentSnapshot maxTargetsSize fuel fetched1 rest ds1 with
            | .error e => .error e
            | .ok (roles1, calls1, ds2) =>
              .ok (role.withTargets (some (t.withDelegations (some d1))) :: roles1,
                calls ++ calls1, ds2)
        | none =>
          match attach_delegated_roles verifyDelegation verifyPathsOk fetchRole snapshot
              consistentSnapshot maxTargetsSize fuel fetched1 rest ds with
          | .error e => .error e
          | .ok (roles1, calls1, ds1) =>
            .ok (role.withTargets (some t) :: roles1, calls1, ds1)
      | none =>
        match attach_delegated_roles verifyDelegation verifyPathsOk fetchRole snapshot
            consistentSnapshot maxTargetsSize fuel fetched1 rest ds with
        | .error e => .error e
        | .ok (roles1, calls1, ds1) =>
          .ok (role.withTargets none :: roles1, calls1, ds1)
end

/-- The rollback check of `load_targets` (lib.rs lines 955-973), 4.3 of the
TUF workflow: same pattern as the timestamp rollback, against the stored
`targets.json`. -/
def load_targets_rollback (verify : STargets → Bool)
    (targets : STargets) (ds : Datastore) : Except Error Unit :=
  match (ds.reader "targets.json").bind DSFile.asTargets with
  | some oldTargets =>
    if verify oldTargets then
      if oldTargets.version ≤ targets.version then .ok ()
      else .error (.OlderMetadata .Targets oldTargets.version targets.version)
    else .ok ()
  | none => .ok ()

/-- `load_targets` (lib.rs lines 870-1001): locate the targets descriptor
in `snapshot.meta["targets.json"]` (else `MetaMissing`, whose role field the
source sets to `Timestamp`), pick the consistent-snapshot filename, compute
the byte cap and specifier — the descriptor's `length` with specifier
`"snapshot.json"` when present, else the configured `max_targets_size` with
specifier `"max_targets_size parameter"` (lines 905-908; note the local
variable `max_targets_size` is shadowed by this cap) — fetch with
`fetch_sha256` when the descriptor carries hashes and `fetch_max_size`
otherwise, parse, require the version to equal the descriptor's, verify
under the trusted root's Targets keys, run the rollback check, check
expiration when `Safe`, persist, and when the payload carries delegations
recurse into them passing the (shadowed) cap as `max_targets_size`.  The
returned list of fetch calls is this function's own fetch followed by the
delegation traversal's. -/
def load_targets (verify : STargets → Bool)
    (verifyDelegation : Delegations → STargets → String → Bool)
    (verifyPathsOk : Delegations → Bool)
    (fetchTargets : String → FetchOutcome STargets)
    (fetchRole : String → FetchOutcome STargets)
    (consistentSnapshot : Bool)
    (snapshot : SignedSnapshot)
    (maxTargetsSize : Nat)
    (now : Int) (expirationEnforcement : ExpirationEnforcement)
    (fuel : Nat)
    (ds : Datastore) : Except Error (STargets × List FetchCall × Datastore) :=
  match snapshot.meta.lookup "targets.json" with
  | none => .error (.MetaMissing "targets.json" .Timestamp)
  | some targetsMeta =>
    let path := if consistentSnapshot then
        Nat.repr targetsMeta.version ++ ".targets.json"
      else "targets.json"
    let sized : Nat × String :=
      match targetsMeta.length with
      | some length => (length, "snapshot.json")
      | none => (maxTargetsSize, "max_targets_size parameter")
    let call : FetchCall :=
      match targetsMeta.sha256 with
      | some _ => ⟨.sha256, path, sized.1, sized.2⟩
      | none => ⟨.maxSize, path, sized.1, sized.2⟩
    match fetchTargets path with
    | .err e => .error (.Transport e)
    | .unparsable => .error (.ParseMetadata .Targets)
    | .ok targets =>
      if targets.version = targetsMeta.version then
        if verify targets then
          match load_targets_rollback verify targets ds with
          | .error e => .error e
          | .ok _ =>
            match (if expirationEnforcement = ExpirationEnforcement.Safe then
                    check_expired now ds targets.expires .Targets
                  else .ok ds) with
            | .error e => .error e
            | .ok ds1 =>
              let ds2 := ds1.create "targets.json" (.targetsFile (some targets))
              match targets.delegations with
              | some delegations =>
                match load_delegations verifyDelegation verifyPathsOk fetchRole snapshot
                    consistentSnapshot sized.1 fuel delegations ds2 with
                | .error e => .error e
                | .ok (d1, calls, ds3) =>
                  .ok (targets.withDelegations (some d1), call :: calls, ds3)
              | none => .ok (targets, [call], ds2)
        else .error (.VerifyMetadata .Targets)
      else .error (.VersionMismatch .Targets targets.version targetsMeta.version)

/-- `Limits` (lib.rs lines 244-258): the four configured bounds. -/
structure Limits where
  maxRootSize : Nat
  maxTargetsSize : Nat
  maxTimestampSize : Nat
  maxRootUpdates : Nat
deriving DecidableEq, Repr

/-- `impl Default for Limits` (lib.rs lines 260-269). -/
def Limits.default : Limits :=
  ⟨1024 * 1024, 1024 * 1024 * 10, 1024 * 1024, 1024⟩

/-- Rust's `Iterator::min_by_key` over a non-empty list: the fold keeps the
current element unless a strictly smaller key appears, so of several equal
minima the first is returned. -/
def min_by_key_first (first : Int × RoleType) (rest : List (Int × RoleType)) :
    Int × RoleType :=
  rest.foldl (fun acc y => if y.1 < acc.1 then y else acc) first

/-- The fields of `Repository` (lib.rs lines 275-289) the embedding tracks;
the transport, URLs and limits live in the oracles and arguments. -/
structure Repository where
  consistentSnapshot : Bool
  datastore : Datastore
  earliestExpiration : Int
  earliestExpirationRole : RoleType
  root : SignedRoot
  snapshot : SignedSnapshot
  timestamp : SignedTimestamp
  targets : STargets
  expirationEnforcement : ExpirationEnforcement

/-- `Repository::load` (lib.rs lines 293-369): run the four role loaders in
order, threading the datastore, then compute the earliest expiration as
`min_by_key` over `[(root, Root), (timestamp, Timestamp), (snapshot,
Snapshot), (targets, Targets)]` (lines 345-352) and assemble the
repository.  Each verification oracle receives the final trusted root the
way the source passes `&root` into the loaders. -/
def Repository.load
    (verifyRootRole : SignedRoot → SignedRoot → Bool)
    (verifyTimestamp : SignedRoot → SignedTimestamp → Bool)
    (verifySnapshot : SignedRoot → SignedSnapshot → Bool)
    (verifyTargets : SignedRoot → STargets → Bool)
    (verifyDelegation : Delegations → STargets → String → Bool)
    (verifyPathsOk : Delegations → Bool)
    (fetchRoot : Nat → FetchOutcome SignedRoot)
    (fetchTimestamp : FetchOutcome SignedTimestamp)
    (fetchSnapshot : String → Nat → Nat → FetchOutcome SignedSnapshot)
    (fetchTargets : String → FetchOutcome STargets)
    (fetchRole : String → FetchOutcome STargets)
    (limits : Limits)
    (trustedRoot : Option SignedRoot)
    (expirationEnforcement : ExpirationEnforcement)
    (now : Int) (fuel : Nat)
    (ds : Datastore) : Except Error Repository :=
  match load_root verifyRootRole fetchRoot limits.maxRootUpdates trustedRoot
      expirationEnforcement now ds with
  | .error e => .error e
  | .ok (root, ds1) =>
    match load_timestamp (verifyTimestamp root) fetchTimestamp now
        expirationEnforcement ds1 with
    | .error e => .error e
    | .ok (timestamp, ds2) =>
      match load_snapshot (verifySnapshot root) fetchSnapshot
          root.consistentSnapshot timestamp now expirationEnforcement ds2 with
      | .error e => .error e
      | .ok (snapshot, ds3) =>
        match load_targets (verifyTargets root) verifyDelegation verifyPathsOk
            fetchTargets fetchRole root.consistentSnapshot snapshot
            limits.maxTargetsSize now expirationEnforcement fuel ds3 with
        | .error e => .error e
        | .ok (targets, _, ds4) =>
          let earliest := min_by_key_first (root.expires, .Root)
            [(timestamp.expires, .Timestamp), (snapshot.expires, .Snapshot),
             (targets.expires, .Targets)]
          .ok {
            consistentSnapshot := root.consistentSnapshot
            datastore := ds4
            earliestExpiration := earliest.1
            earliestExpirationRole := earliest.2
            root := root
            snapshot := snapshot
            timestamp := timestamp
            targets := targets
            expirationEnforcement := expirationEnforcement }

/-! ## Supporting lemmas for the root walk -/

/-- Successful exits of the root-update loop carry a trusted root whose
version is at least the input's and strictly below
`originalRootVersion + maxRootUpdates` (the bound check passed on the last
iteration). -/
theorem load_root_loop_ok_version_bounds (verify : SignedRoot → SignedRoot → Bool)
    (fetchRoot : Nat → FetchOutcome SignedRoot)
    (originalRootVersion maxRootUpdates : Nat) :
    ∀ fuel root final,
      load_root_loop verify fetchRoot originalRootVersion maxRootUpdates fuel root =
        .ok final →
      root.version ≤ final.version ∧
        final.version < originalRootVersion + maxRootUpdates := by
  intro fuel
  induction fuel with
  | zero => intro root final h; simp [load_root_loop] at h
  | succ fuel ih =>
    intro root final h
    rw [load_root_loop] at h
    by_cases hb : root.version < originalRootVersion + maxRootUpdates
    · rw [if_pos hb] at h
      cases hf : fetchRoot (root.version + 1) with
      | err e =>
        rw [hf] at h
        simp only [Except.ok.injEq] at h
        subst h
        exact ⟨Nat.le_refl _, hb⟩
      | unparsable => rw [hf] at h; simp at h
      | ok newRoot =>
        rw [hf] at h
        simp only at h
        cases hv1 : verify root newRoot with
        | false => rw [hv1] at h; simp at h
        | true =>
          rw [hv1] at h
          cases hv2 : verify newRoot newRoot with
          | false => rw [hv2] at h; simp at h
          | true =>
            rw [hv2] at h
            simp only [if_true] at h
            by_cases hle : root.version ≤ newRoot.version
            · rw [if_pos hle] at h
              by_cases heq : root.version = newRoot.version
              · rw [if_pos heq] at h
                simp only [Except.ok.injEq] at h
                subst h
                exact ⟨Nat.le_refl _, hb⟩
              · rw [if_neg heq] at h
                have := ih newRoot final h
                exact ⟨Nat.le_trans hle this.1, this.2⟩
            · rw [if_neg hle] at h; simp at h
    · rw [if_neg hb] at h; simp at h

/-- The result of the root-update loop does not depend on the fuel once the
fuel covers the iterations the bound check admits: `load_root`'s choice of
`maxRootUpdates + 1` is as good as any larger fuel. -/
theorem load_root_loop_fuel_irrelevant (verify : SignedRoot → SignedRoot → Bool)
    (fetchRoot : Nat → FetchOutcome SignedRoot)
    (originalRootVersion maxRootUpdates : Nat) :
    ∀ fuel fuel' root,
      originalRootVersion + maxRootUpdates + 1 ≤ root.version + fuel →
      originalRootVersion + maxRootUpdates + 1 ≤ root.version + fuel' →
      load_root_loop verify fetchRoot originalRootVersion maxRootUpdates fuel root =
        load_root_loop verify fetchRoot originalRootVersion maxRootUpdates fuel' root := by
  intro fuel
  induction fuel with
  | zero =>
    intro fuel' root h h'
    have hb : ¬ root.version < originalRootVersion + maxRootUpdates := by omega
    cases fuel' with
    | zero => rfl
    | succ fuel' =>
      rw [load_root_loop, load_root_loop, if_neg hb]
  | succ fuel ih =>
    intro fuel' root h h'
    by_cases hb : root.version < originalRootVersion + maxRootUpdates
    · have hf' : ∃ g, fuel' = g + 1 := ⟨fuel' - 1, by omega⟩
      obtain ⟨g, rfl⟩ := hf'
      rw [load_root_loop, load_root_loop, if_pos hb, if_pos hb]
      cases hf : fetchRoot (root.version + 1) with
      | err e => rfl
      | unparsable => rfl
      | ok newRoot =>
        by_cases hv1 : verify root newRoot = true
        · by_cases hv2 : verify newRoot newRoot = true
          · simp only [hv1, hv2, if_true]
            by_cases hle : root.version ≤ newRoot.version
            · by_cases heq : root.version = newRoot.version
              · rw [if_pos hle, if_pos hle, if_pos heq, if_pos heq]
              · rw [if_pos hle, if_pos hle, if_neg heq, if_neg heq]
                exact ih g newRoot (by omega) (by omega)
            · rw [if_neg hle, if_neg hle]
          · simp only [if_pos hv1, if_neg hv2]
        · simp only [if_neg hv1]
    · cases fuel' with
      | zero => rw [load_root_loop, load_root_loop, if_neg hb]
      | succ g => rw [load_root_loop, load_root_loop, if_neg hb, if_neg hb]

/-! ## Claim theorems C1-C4 and C10: the root walk -/

/-- C1: during the root-update walk, for a fetched candidate root that
parses and passes both signature verifications, the loop compares versions:
a candidate older than the trusted root fails the load with
`OlderMetadata{Root}`; an equal version exits the walk with the trusted
root unchanged; a newer candidate becomes the trusted root and the walk
continues from it. -/
theorem root_walk_version_trichotomy (verify : SignedRoot → SignedRoot → Bool)
    (fetchRoot : Nat → FetchOutcome SignedRoot)
    (originalRootVersion maxRootUpdates fuel : Nat) (root newRoot : SignedRoot)
    (hbound : root.version < originalRootVersion + maxRootUpdates)
    (hfetch : fetchRoot (root.version + 1) = .ok newRoot)
    (hcont : verify root newRoot = true)
    (hself : verify newRoot newRoot = true) :
    load_root_loop verify fetchRoot originalRootVersion maxRootUpdates (fuel + 1) root =
      if newRoot.version < root.version then
        .error (.OlderMetadata .Root root.version newRoot.version)
      else if root.version = newRoot.version then .ok root
      else load_root_loop verify fetchRoot originalRootVersion maxRootUpdates fuel newRoot := by
  rw [load_root_loop, if_pos hbound, hfetch]
  simp only [hcont, hself, if_true]
  by_cases h1 : newRoot.version < root.version
  · rw [if_neg (by omega), if_pos h1]
  · rw [if_pos (by omega), if_neg h1]

/-- C1 witness: a concrete walk whose candidate carries the same version as
the trusted root exits with the trusted root unchanged. -/
theorem root_walk_version_trichotomy_witness :
    load_root_loop (fun _ _ => true) (fun _ => .ok ⟨1, 5, false, [], []⟩) 1 2 3
        ⟨1, 5, false, [], []⟩ =
      if (1 : Nat) < 1 then .error (.OlderMetadata .Root 1 1)
      else if (1 : Nat) = 1 then .ok ⟨1, 5, false, [], []⟩
      else load_root_loop (fun _ _ => true) (fun _ => .ok ⟨1, 5, false, [], []⟩) 1 2 2
        ⟨1, 5, false, [], []⟩ :=
  root_walk_version_trichotomy (fun _ _ => true) (fun _ => .ok ⟨1, 5, false, [], []⟩)
    1 2 2 ⟨1, 5, false, [], []⟩ ⟨1, 5, false, [], []⟩ (by decide) rfl rfl rfl

/-- C2: a fetched candidate root is verified both under the trusted root's
Root keys and under its own; if either verification fails, the walk (and
with it the load) aborts with `VerifyMetadata{Root}`, so the trusted root
is never replaced by an unverified candidate and there is no fallback. -/
theorem root_walk_verify_both_required (verify : SignedRoot → SignedRoot → Bool)
    (fetchRoot : Nat → FetchOutcome SignedRoot)
    (originalRootVersion maxRootUpdates fuel : Nat) (root newRoot : SignedRoot)
    (hbound : root.version < originalRootVersion + maxRootUpdates)
    (hfetch : fetchRoot (root.version + 1) = .ok newRoot)
    (hfail : verify root newRoot = false ∨ verify newRoot newRoot = false) :
    load_root_loop verify fetchRoot originalRootVersion maxRootUpdates (fuel + 1) root =
      .error (.VerifyMetadata .Root) := by
  rw [load_root_loop, if_pos hbound, hfetch]
  rcases hfail with h | h
  · simp only [h, Bool.false_eq_true, if_false]
  · cases hv : verify root newRoot <;>
      simp only [h, hv, Bool.false_eq_true, if_false, if_true]

/-- C2 witness: a candidate failing continuity verification aborts the walk
with `VerifyMetadata{Root}`. -/
theorem root_walk_verify_both_required_witness :
    load_root_loop (fun _ _ => false) (fun _ => .ok ⟨2, 5, false, [], []⟩) 1 2 3
        ⟨1, 5, false, [], []⟩ = .error (.VerifyMetadata .Root) :=
  root_walk_verify_both_required (fun _ _ => false)
    (fun _ => .ok ⟨2, 5, false, [], []⟩) 1 2 2 ⟨1, 5, false, [], []⟩
    ⟨2, 5, false, [], []⟩ (by decide) rfl (Or.inl rfl)

/-- C3: before each fetch the walk checks the bound: once the trusted
version `N` satisfies `N >= N0 + max_root_updates` the load fails with
`MaxUpdatesExceeded` whatever the server would have answered; consequently
a successful walk ends strictly below `N0 + max_root_updates`, and since
each accepted candidate strictly increases the trusted version, at most
`max_root_updates` new root versions are ever accepted. -/
theorem root_walk_max_updates (verify : SignedRoot → SignedRoot → Bool)
    (fetchRoot : Nat → FetchOutcome SignedRoot)
    (originalRootVersion maxRootUpdates fuel : Nat) (root final : SignedRoot) :
    (originalRootVersion + maxRootUpdates ≤ root.version →
      load_root_loop verify fetchRoot originalRootVersion maxRootUpdates fuel root =
        .error (.MaxUpdatesExceeded maxRootUpdates))
    ∧ (load_root_loop verify fetchRoot originalRootVersion maxRootUpdates fuel root =
        .ok final →
      root.version ≤ final.version ∧
        final.version < originalRootVersion + maxRootUpdates) := by
  constructor
  · intro h
    cases fuel with
    | zero => rfl
    | succ fuel => rw [load_root_loop, if_neg (by omega)]
  · exact load_root_loop_ok_version_bounds verify fetchRoot
      originalRootVersion maxRootUpdates fuel root final

/-- C3 witness: with the trusted version at the bound the walk fails with
`MaxUpdatesExceeded`, and a concrete successful walk ends strictly below
the bound. -/
theorem root_walk_max_updates_witness :
    load_root_loop (fun _ _ => true) (fun _ => .err (.transport .FileNotFound)) 3 2 9
        ⟨5, 7, false, [], []⟩ = .error (.MaxUpdatesExceeded 2)
    ∧ ((5 : Nat) ≤ 5 ∧ (5 : Nat) < 3 + 7) :=
  ⟨(root_walk_max_updates (fun _ _ => true) (fun _ => .err (.transport .FileNotFound))
      3 2 9 ⟨5, 7, false, [], []⟩ ⟨5, 7, false, [], []⟩).1 (by decide),
   (root_walk_max_updates (fun _ _ => true) (fun _ => .err (.transport .FileNotFound))
      3 7 9 ⟨5, 7, false, [], []⟩ ⟨5, 7, false, [], []⟩).2 rfl⟩

/-- C4: any error from the bounded fetch of `{N+1}.root.json` — whatever
its kind — exits the walk normally with the current trusted root, and under
the same scenario the whole `load_root` proceeds with that root instead of
aborting (stated for `Unsafe` enforcement so that the conclusion does not
depend on the clock). -/
theorem root_walk_fetch_error_exits (verify : SignedRoot → SignedRoot → Bool)
    (fetchRoot : Nat → FetchOutcome SignedRoot)
    (originalRootVersion maxRootUpdates fuel : Nat) (root : SignedRoot)
    (e : FetchErr) (now : Int) (ds : Datastore)
    (hbound : root.version < originalRootVersion + maxRootUpdates)
    (hfetch : fetchRoot (root.version + 1) = .err e) :
    load_root_loop verify fetchRoot originalRootVersion maxRootUpdates (fuel + 1) root =
      .ok root
    ∧ (verify root root = true → root.version = originalRootVersion →
      load_root verify fetchRoot maxRootUpdates (some root) .Unsafe now ds =
        .ok (root, ds)) := by
  have hloop : ∀ g, load_root_loop verify fetchRoot originalRootVersion maxRootUpdates
      (g + 1) root = .ok root := by
    intro g
    rw [load_root_loop, if_pos hbound, hfetch]
  refine ⟨hloop fuel, fun hv hver => ?_⟩
  rw [load_root]
  simp only [hv, if_true]
  have hthis : load_root_loop verify fetchRoot root.version maxRootUpdates
      (maxRootUpdates + 1) root = .ok root := by
    rw [load_root_loop, if_pos (by omega), hfetch]
  rw [hthis]
  simp

/-- C4 witness: a size-cap overrun (not a `FileNotFound`) exits the walk
normally and `load_root` returns the caller's trusted root. -/
theorem root_walk_fetch_error_exits_witness :
    load_root_loop (fun _ _ => true)
      (fun _ => .err (.maxSizeExceeded 64 "max_root_size argument")) 1 4 8
      ⟨1, 5, false, [], []⟩ = .ok ⟨1, 5, false, [], []⟩
    ∧ load_root (fun _ _ => true)
      (fun _ => .err (.maxSizeExceeded 64 "max_root_size argument")) 4
      (some ⟨1, 5, false, [], []⟩) .Unsafe 0 ⟨[]⟩ = .ok (⟨1, 5, false, [], []⟩, ⟨[]⟩) := by
  have h := root_walk_fetch_error_exits (fun _ _ => true)
    (fun _ => .err (.maxSizeExceeded 64 "max_root_size argument")) 1 4 7
    ⟨1, 5, false, [], []⟩ (.maxSizeExceeded 64 "max_root_size argument") 0 ⟨[]⟩
    (by decide) rfl
  exact ⟨h.1, h.2 rfl rfl⟩

/-- C10: with `max_root_updates = 0` the bound check compares the trusted
version with itself and fails immediately: for every server `load` fails
with `MaxUpdatesExceeded` as soon as the trusted root parses and
self-verifies, before any root metadata file is fetched. -/
theorem load_root_zero_updates (verify : SignedRoot → SignedRoot → Bool)
    (root : SignedRoot) (expirationEnforcement : ExpirationEnforcement)
    (now : Int) (ds : Datastore)
    (hv : verify root root = true) :
    ∀ fetchRoot : Nat → FetchOutcome SignedRoot,
      load_root verify fetchRoot 0 (some root) expirationEnforcement now ds =
        .error (.MaxUpdatesExceeded 0) := by
  intro fetchRoot
  rw [load_root]
  simp only [hv, if_true]
  rw [load_root_loop, if_neg (by omega)]

/-- C10 witness: a concrete trusted root under `max_root_updates = 0` fails
immediately, for a server that would even serve a verifiable next root. -/
theorem load_root_zero_updates_witness :
    load_root (fun _ _ => true) (fun _ => .ok ⟨2, 9, false, [], []⟩) 0
      (some ⟨1, 5, false, [], []⟩) .Safe 0 ⟨[]⟩ = .error (.MaxUpdatesExceeded 0) :=
  load_root_zero_updates (fun _ _ => true) ⟨1, 5, false, [], []⟩ .Safe 0 ⟨[]⟩ rfl
    (fun _ => .ok ⟨2, 9, false, [], []⟩)

/-! ## Supporting lemmas for the time oracle -/

/-- The side condition under which the time oracle succeeds: either
`latest_known_time.json` is absent or unparsable, or the stored instant is
at most the sampled wall clock. -/
def time_ok (now : Int) (ds : Datastore) : Prop :=
  match (ds.reader "latest_known_time.json").bind DSFile.asTime with
  | some stored => stored ≤ now
  | none => True

/-- Reading back a file just created returns its content. -/
theorem Datastore.reader_create (ds : Datastore) (name : String) (file : DSFile) :
    (ds.create name file).reader name = some file := by
  simp [Datastore.create, Datastore.reader, List.lookup]

/-- Under `time_ok`, `system_time` returns the sampled wall clock and the
datastore with that sample written to `latest_known_time.json`. -/
theorem system_time_of_time_ok (now : Int) (ds : Datastore) (h : time_ok now ds) :
    system_time now ds =
      .ok (now, ds.create "latest_known_time.json" (.timeFile (some now))) := by
  rw [system_time]
  unfold time_ok at h
  cases hr : (ds.reader "latest_known_time.json").bind DSFile.asTime with
  | none => rfl
  | some stored =>
    rw [hr] at h
    exact if_pos (show stored ≤ now from h)

/-! ## Claim theorem C7: asymmetric expiration strictness -/

/-- C7: when the time oracle succeeds, the load-time check `check_expired`
succeeds exactly when `now <= expires` (failing with `ExpiredMetadata` for
the checked role otherwise), while the `read_target` gate under `Safe`
enforcement succeeds exactly when `now < earliest_expiration` (failing with
`ExpiredMetadata` for the earliest-expiring role otherwise). -/
theorem expiration_strictness_asymmetry (now expiresAt earliestExpiration : Int)
    (role earliestRole : RoleType) (ds : Datastore)
    (h : time_ok now ds) :
    (check_expired now ds expiresAt role =
        .ok (ds.create "latest_known_time.json" (.timeFile (some now))) ↔
      now ≤ expiresAt)
    ∧ (expiresAt < now →
      check_expired now ds expiresAt role = .error (.ExpiredMetadata role))
    ∧ (read_target_check .Safe now earliestExpiration earliestRole ds =
        .ok (ds.create "latest_known_time.json" (.timeFile (some now))) ↔
      now < earliestExpiration)
    ∧ (earliestExpiration ≤ now →
      read_target_check .Safe now earliestExpiration earliestRole ds =
        .error (.ExpiredMetadata earliestRole)) := by
  have hs := system_time_of_time_ok now ds h
  refine ⟨?_, ?_, ?_, ?_⟩
  · simp only [check_expired, hs]
    by_cases hc : now ≤ expiresAt
    · simp [hc]
    · simp [hc]
  · intro hlt
    simp only [check_expired, hs]
    rw [if_neg (by omega)]
  · rw [read_target_check, if_pos rfl]
    simp only [hs]
    by_cases hc : now < earliestExpiration
    · simp [hc]
    · simp [hc]
  · intro hle
    rw [read_target_check, if_pos rfl]
    simp only [hs]
    rw [if_neg (by omega)]

/-- C7 witness: at the expiration instant itself the load-time check passes
while the `read_target` gate fails. -/
theorem expiration_strictness_asymmetry_witness :
    (check_expired 5 ⟨[]⟩ 5 .Snapshot =
        .ok (Datastore.create ⟨[]⟩ "latest_known_time.json" (.timeFile (some 5))) ↔
      (5 : Int) ≤ 5)
    ∧ ((5 : Int) < 5 →
      check_expired 5 ⟨[]⟩ 5 .Snapshot = .error (.ExpiredMetadata .Snapshot))
    ∧ (read_target_check .Safe 5 5 .Timestamp ⟨[]⟩ =
        .ok (Datastore.create ⟨[]⟩ "latest_known_time.json" (.timeFile (some 5))) ↔
      (5 : Int) < 5)
    ∧ ((5 : Int) ≤ 5 →
      read_target_check .Safe 5 5 .Timestamp ⟨[]⟩ =
        .error (.ExpiredMetadata .Timestamp)) :=
  expiration_strictness_asymmetry 5 5 5 .Snapshot .Timestamp ⟨[]⟩
    ((True.intro : True) : time_ok 5 ⟨[]⟩)

/-! ## Claim theorem C9: the time oracle never steps backward -/

/-- C9: the time oracle fails with `SystemTimeSteppedBackward` exactly when
`latest_known_time.json` exists, parses, and the sampled wall clock is
strictly earlier than the stored instant; every success writes the sampled
clock back, so across two successive successful calls the recorded instant
never decreases. -/
theorem system_time_never_steps_backward (t1 t2 stored : Int)
    (ds ds1 ds2 : Datastore) :
    ((ds.reader "latest_known_time.json").bind DSFile.asTime = some stored →
      t1 < stored →
      system_time t1 ds = .error (.SystemTimeSteppedBackward t1 stored))
    ∧ (time_ok t1 ds →
      system_time t1 ds =
        .ok (t1, ds.create "latest_known_time.json" (.timeFile (some t1))))
    ∧ (system_time t1 ds = .ok (t1, ds1) →
      (ds1.reader "latest_known_time.json").bind DSFile.asTime = some t1)
    ∧ (system_time t1 ds = .ok (t1, ds1) → system_time t2 ds1 = .ok (t2, ds2) →
      t1 ≤ t2 ∧
        (ds2.reader "latest_known_time.json").bind DSFile.asTime = some t2) := by
  have hwrite : ∀ e : Datastore,
      ((e.create "latest_known_time.json" (.timeFile (some t1))).reader
        "latest_known_time.json").bind DSFile.asTime = some t1 := by
    intro e
    rw [Datastore.reader_create]
    rfl
  have hok : ∀ (t : Int) (e e' : Datastore), system_time t e = .ok (t, e') →
      e' = e.create "latest_known_time.json" (.timeFile (some t)) := by
    intro t e e' hcall
    rw [system_time] at hcall
    cases hr : (e.reader "latest_known_time.json").bind DSFile.asTime with
    | none =>
      rw [hr] at hcall
      have hcall' : (Except.ok
            (t, e.create "latest_known_time.json" (DSFile.timeFile (some t))) :
            Except Error (Int × Datastore)) =
          Except.ok (t, e') := hcall
      simp only [Except.ok.injEq, Prod.mk.injEq] at hcall'
      exact hcall'.2.symm
    | some s =>
      rw [hr] at hcall
      have hcall' : (if t ≥ s then
            (Except.ok
              (t, e.create "latest_known_time.json" (DSFile.timeFile (some t))) :
              Except Error (Int × Datastore))
          else Except.error (Error.SystemTimeSteppedBackward t s)) =
          Except.ok (t, e') := hcall
      by_cases hge : t ≥ s
      · rw [if_pos hge] at hcall'
        simp only [Except.ok.injEq, Prod.mk.injEq] at hcall'
        exact hcall'.2.symm
      · rw [if_neg hge] at hcall'
        simp at hcall'
  refine ⟨?_, system_time_of_time_ok t1 ds, ?_, ?_⟩
  · intro hr hlt
    rw [system_time, hr]
    exact if_neg (by omega)
  · intro h1
    have := hok t1 ds ds1 h1
    subst this
    exact hwrite ds
  · intro h1 h2
    have e1 := hok t1 ds ds1 h1
    have e2 := hok t2 ds1 ds2 h2
    have hr1 : (ds1.reader "latest_known_time.json").bind DSFile.asTime = some t1 := by
      subst e1
      exact hwrite ds
    refine ⟨?_, ?_⟩
    · by_cases hge : t2 ≥ t1
      · omega
      · exfalso
        rw [system_time, hr1] at h2
        have h2' : (if t2 ≥ t1 then
              (Except.ok
                (t2, ds1.create "latest_known_time.json" (DSFile.timeFile (some t2))) :
                Except Error (Int × Datastore))
            else Except.error (Error.SystemTimeSteppedBackward t2 t1)) =
            Except.ok (t2, ds2) := h2
        rw [if_neg hge] at h2'
        simp at h2'
    · subst e2
      rw [Datastore.reader_create]
      rfl

/-- C9 witness: with `4` stored, sampling `3` fails with
`SystemTimeSteppedBackward{3, 4}`; sampling `5` succeeds and records `5`;
a follow-up successful call at `6` shows the recorded instant increased. -/
theorem system_time_never_steps_backward_witness :
    system_time 3 ⟨[("latest_known_time.json", .timeFile (some 4))]⟩ =
      .error (.SystemTimeSteppedBackward 3 4)
    ∧ system_time 5 ⟨[("latest_known_time.json", .timeFile (some 4))]⟩ =
      .ok (5, Datastore.create ⟨[("latest_known_time.json", .timeFile (some 4))]⟩
        "latest_known_time.json" (.timeFile (some 5)))
    ∧ ((5 : Int) ≤ 6 ∧
      (Datastore.reader ⟨[("latest_known_time.json", .timeFile (some 6))]⟩
        "latest_known_time.json").bind DSFile.asTime = some 6) :=
  ⟨(system_time_never_steps_backward 3 6 4
      ⟨[("latest_known_time.json", .timeFile (some 4))]⟩ ⟨[]⟩ ⟨[]⟩).1 rfl (by decide),
   (system_time_never_steps_backward 5 6 4
      ⟨[("latest_known_time.json", .timeFile (some 4))]⟩ ⟨[]⟩ ⟨[]⟩).2.1
      ((by decide : (4 : Int) ≤ 5) :
        time_ok 5 ⟨[("latest_known_time.json", .timeFile (some 4))]⟩),
   (system_time_never_steps_backward 5 6 4
      ⟨[("latest_known_time.json", .timeFile (some 4))]⟩
      ⟨[("latest_known_time.json", .timeFile (some 5))]⟩
      ⟨[("latest_known_time.json", .timeFile (some 6))]⟩).2.2.2 rfl rfl⟩

/-! ## Claim theorem C8: earliest-expiration bookkeeping -/

/-- Modelled from the spec's words (§4.10, §9 "Tie in earliest-expiration"):
the reported role is the first of `Root, Timestamp, Snapshot, Targets`
whose expiration attains the minimum.  Used to compare the code's
`min_by_key` computation against the specified tie-break. -/
def specEarliestRole (rootExp tsExp snapExp tgtExp : Int) : RoleType :=
  let m := min (min (min rootExp tsExp) snapExp) tgtExp
  if rootExp = m then .Root
  else if tsExp = m then .Timestamp
  else if snapExp = m then .Snapshot
  else .Targets

set_option maxHeartbeats 1000000 in
/-- `min_by_key` over the four-role array returns the minimum expiration
paired with the first role attaining it. -/
theorem min_by_key_first_four (r t s g : Int) :
    min_by_key_first (r, .Root) [(t, .Timestamp), (s, .Snapshot), (g, .Targets)] =
      (min (min (min r t) s) g, specEarliestRole r t s g) := by
  unfold min_by_key_first specEarliestRole
  simp only [List.foldl]
  split_ifs <;>
    first
      | rfl
      | (refine Prod.ext (by omega) ?_; first | rfl | (exfalso; omega))

/-- C8: after every successful load, the repository's earliest expiration
is the minimum of the four top-level role expirations, and the recorded
role is the first of `Root, Timestamp, Snapshot, Targets` attaining it. -/
theorem repository_earliest_expiration
    (verifyRootRole : SignedRoot → SignedRoot → Bool)
    (verifyTimestamp : SignedRoot → SignedTimestamp → Bool)
    (verifySnapshot : SignedRoot → SignedSnapshot → Bool)
    (verifyTargets : SignedRoot → STargets → Bool)
    (verifyDelegation : Delegations → STargets → String → Bool)
    (verifyPathsOk : Delegations → Bool)
    (fetchRoot : Nat → FetchOutcome SignedRoot)
    (fetchTimestamp : FetchOutcome SignedTimestamp)
    (fetchSnapshot : String → Nat → Nat → FetchOutcome SignedSnapshot)
    (fetchTargets : String → FetchOutcome STargets)
    (fetchRole : String → FetchOutcome STargets)
    (limits : Limits) (trustedRoot : Option SignedRoot)
    (expirationEnforcement : ExpirationEnforcement)
    (now : Int) (fuel : Nat) (ds : Datastore) (repo : Repository)
    (h : Repository.load verifyRootRole verifyTimestamp verifySnapshot verifyTargets
      verifyDelegation verifyPathsOk fetchRoot fetchTimestamp fetchSnapshot
      fetchTargets fetchRole limits trustedRoot expirationEnforcement now fuel ds =
      .ok repo) :
    repo.earliestExpiration =
      min (min (min repo.root.expires repo.timestamp.expires) repo.snapshot.expires)
        repo.targets.expires
    ∧ repo.earliestExpirationRole =
      specEarliestRole repo.root.expires repo.timestamp.expires
        repo.snapshot.expires repo.targets.expires := by
  rw [Repository.load] at h
  cases h1 : load_root verifyRootRole fetchRoot limits.maxRootUpdates trustedRoot
      expirationEnforcement now ds with
  | error e => rw [h1] at h; simp at h
  | ok p1 =>
    obtain ⟨root, ds1⟩ := p1
    rw [h1] at h
    simp only at h
    cases h2 : load_timestamp (verifyTimestamp root) fetchTimestamp now
        expirationEnforcement ds1 with
    | error e => rw [h2] at h; simp at h
    | ok p2 =>
      obtain ⟨timestamp, ds2⟩ := p2
      rw [h2] at h
      simp only at h
      cases h3 : load_snapshot (verifySnapshot root) fetchSnapshot
          root.consistentSnapshot timestamp now expirationEnforcement ds2 with
      | error e => rw [h3] at h; simp at h
      | ok p3 =>
        obtain ⟨snapshot, ds3⟩ := p3
        rw [h3] at h
        simp only at h
        cases h4 : load_targets (verifyTargets root) verifyDelegation verifyPathsOk
            fetchTargets fetchRole root.consistentSnapshot snapshot
            limits.maxTargetsSize now expirationEnforcement fuel ds3 with
        | error e => rw [h4] at h; simp at h
        | ok p4 =>
          obtain ⟨targets, calls, ds4⟩ := p4
          rw [h4] at h
          simp only [Except.ok.injEq] at h
          subst h
          simp only [min_by_key_first_four]
          exact ⟨trivial, trivial⟩

/-- Concrete oracles and metadata for a small successful end-to-end load:
every signature verifies, the server has no newer root, and the four roles
expire at `10, 8, 9, 12`. -/
def exRoot : SignedRoot := ⟨1, 10, false, [], []⟩

/-- The timestamp of the C8 example, expiring at `8` (the earliest). -/
def exTimestamp : SignedTimestamp := ⟨1, 8, [("snapshot.json", ⟨1, 10, 5⟩)]⟩

/-- The snapshot of the C8 example, expiring at `9`. -/
def exSnapshot : SignedSnapshot := ⟨1, 9, [("targets.json", ⟨1, some 10, some 5⟩)]⟩

/-- The targets of the C8 example, expiring at `12`, with no delegations. -/
def exTargets : STargets := .mk 1 12 none

/-- The C8 example load: `Unsafe` enforcement so no clock is consulted. -/
def exLoad : Except Error Repository :=
  Repository.load (fun _ _ => true) (fun _ _ => true) (fun _ _ => true)
    (fun _ _ => true) (fun _ _ _ => true) (fun _ => true)
    (fun _ => .err (.transport .FileNotFound)) (.ok exTimestamp)
    (fun _ _ _ => .ok exSnapshot) (fun _ => .ok exTargets)
    (fun _ => .err (.transport .FileNotFound)) Limits.default (some exRoot)
    .Unsafe 0 1 ⟨[]⟩

/-- The repository the C8 example load produces. -/
def exRepo : Repository :=
  ⟨false,
    ⟨[("targets.json", .targetsFile (some exTargets)),
      ("snapshot.json", .snapshotFile (some exSnapshot)),
      ("timestamp.json", .timestampFile (some exTimestamp))]⟩,
    8, .Timestamp, exRoot, exSnapshot, exTimestamp, exTargets, .Unsafe⟩

/-- C8 witness: the example load succeeds, its earliest expiration is the
minimum `8` of `{10, 8, 9, 12}`, and the reported role is `Timestamp`. -/
theorem repository_earliest_expiration_witness :
    exLoad = .ok exRepo
    ∧ exRepo.earliestExpiration =
      min (min (min exRepo.root.expires exRepo.timestamp.expires)
        exRepo.snapshot.expires) exRepo.targets.expires
    ∧ exRepo.earliestExpirationRole =
      specEarliestRole exRepo.root.expires exRepo.timestamp.expires
        exRepo.snapshot.expires exRepo.targets.expires :=
  ⟨rfl,
    (repository_earliest_expiration (fun _ _ => true) (fun _ _ => true)
      (fun _ _ => true) (fun _ _ => true) (fun _ _ _ => true) (fun _ => true)
      (fun _ => .err (.transport .FileNotFound)) (.ok exTimestamp)
      (fun _ _ _ => .ok exSnapshot) (fun _ => .ok exTargets)
      (fun _ => .err (.transport .FileNotFound)) Limits.default (some exRoot)
      .Unsafe 0 1 ⟨[]⟩ exRepo rfl).1,
    (repository_earliest_expiration (fun _ _ => true) (fun _ _ => true)
      (fun _ _ => true) (fun _ _ => true) (fun _ _ _ => true) (fun _ => true)
      (fun _ => .err (.transport .FileNotFound)) (.ok exTimestamp)
      (fun _ _ _ => .ok exSnapshot) (fun _ => .ok exTargets)
      (fun _ => .err (.transport .FileNotFound)) Limits.default (some exRoot)
      .Unsafe 0 1 ⟨[]⟩ exRepo rfl).2⟩

/-! ## Claim C5: the snapshot continuity clause is not enforced -/

/-- The stored snapshot of the C5 scenario: version 1, listing both
`targets.json` and the delegated targets file `role1.json`. -/
def c5OldSnapshot : SignedSnapshot :=
  ⟨1, 99, [("targets.json", ⟨1, none, none⟩), ("role1.json", ⟨1, none, none⟩)]⟩

/-- The freshly served snapshot of the C5 scenario: version 2, listing only
`targets.json` — the filename `role1.json` has disappeared. -/
def c5NewSnapshot : SignedSnapshot :=
  ⟨2, 99, [("targets.json", ⟨1, none, none⟩)]⟩

/-- The timestamp of the C5 scenario, describing the new snapshot. -/
def c5Timestamp : SignedTimestamp := ⟨2, 99, [("snapshot.json", ⟨2, 50, 7⟩)]⟩

/-- The datastore of the C5 scenario, holding the old snapshot. -/
def c5Store : Datastore := ⟨[("snapshot.json", .snapshotFile (some c5OldSnapshot))]⟩

/-- C5: the targets filename `role1.json` is listed in the stored (old)
snapshot and absent from the new one, every signature verifies, yet
`load_snapshot` accepts the new snapshot — the rollback section checks
only `targets.json`, so the continuity clause stated in the source's own
step-3.3.3 comment (every targets metadata filename of the trusted snapshot
MUST continue to be listed) is not enforced. -/
theorem snapshot_continuity_clause_not_enforced :
    c5OldSnapshot.meta.lookup "role1.json" = some ⟨1, none, none⟩
    ∧ c5NewSnapshot.meta.lookup "role1.json" = none
    ∧ load_snapshot (fun _ => true) (fun _ _ _ => .ok c5NewSnapshot) false
        c5Timestamp 0 .Unsafe c5Store =
      .ok (c5NewSnapshot,
        c5Store.create "snapshot.json" (.snapshotFile (some c5NewSnapshot))) :=
  ⟨rfl, rfl, rfl⟩

/-! ## Claim C6: the byte cap used for delegated-role fetches -/

/-- Every fetch call recorded by the first delegation loop beyond those in
the input accumulator uses `fetch_max_size` with the cap passed down as
`max_targets_size` and the specifier `"max_targets_size parameter"`. -/
theorem fetch_delegated_roles_calls
    (verifyDelegation : Delegations → STargets → String → Bool)
    (verifyPathsOk : Delegations → Bool)
    (fetchRole : String → FetchOutcome STargets)
    (snapshot : SignedSnapshot) (consistentSnapshot : Bool)
    (maxTargetsSize : Nat) (delegation : Delegations) :
    ∀ (roles : List DelegatedRole) (fetched : List (String × Option STargets))
      (calls : List FetchCall) (ds : Datastore)
      (out : List (String × Option STargets) × List FetchCall × Datastore),
      fetch_delegated_roles verifyDelegation verifyPathsOk fetchRole snapshot
        consistentSnapshot maxTargetsSize delegation roles fetched calls ds = .ok out →
      ∀ c ∈ out.2.1, c ∈ calls ∨
        (c.kind = .maxSize ∧ c.cap = maxTargetsSize ∧
          c.specifier = "max_targets_size parameter") := by
  intro roles
  induction roles with
  | nil =>
    intro fetched calls ds out h c hc
    rw [fetch_delegated_roles] at h
    simp only [Except.ok.injEq] at h
    subst h
    exact Or.inl hc
  | cons role rest ih =>
    intro fetched calls ds out h c hc
    rw [fetch_delegated_roles] at h
    cases hm : snapshot.meta.lookup (role.name ++ ".json") with
    | none => rw [hm] at h; simp at h
    | some roleMeta =>
      rw [hm] at h
      simp only at h
      cases hf : fetchRole
          (delegated_role_path consistentSnapshot roleMeta.version role.name) with
      | err e => rw [hf] at h; simp at h
      | unparsable => rw [hf] at h; simp at h
      | ok fetchedRole =>
        rw [hf] at h
        simp only at h
        by_cases hv : verifyDelegation delegation fetchedRole role.name = true
        · rw [if_pos hv] at h
          by_cases hver : fetchedRole.version = roleMeta.version
          · rw [if_pos hver] at h
            by_cases hps : (match fetchedRole.delegations with
                | some d => verifyPathsOk d
                | none => true) = true
            · rw [if_pos hps] at h
              rcases ih _ _ _ _ h c hc with hin | hprop
              · rcases List.mem_append.mp hin with h1 | h2
                · exact Or.inl h1
                · have h2' : c = ⟨.maxSize,
                      delegated_role_path consistentSnapshot roleMeta.version role.name,
                      maxTargetsSize, "max_targets_size parameter"⟩ :=
                    List.mem_singleton.mp h2
                  subst h2'
                  exact Or.inr ⟨rfl, rfl, rfl⟩
              · exact Or.inr hprop
            · rw [if_neg hps] at h; simp at h
          · rw [if_neg hver] at h; simp at h
        · rw [if_neg hv] at h; simp at h

/-- Every fetch call recorded by the delegation traversal — at every depth —
uses `fetch_max_size` with the cap passed down as `max_targets_size` and the
specifier `"max_targets_size parameter"`. -/
theorem load_delegations_calls
    (verifyDelegation : Delegations → STargets → String → Bool)
    (verifyPathsOk : Delegations → Bool)
    (fetchRole : String → FetchOutcome STargets)
    (snapshot : SignedSnapshot) (consistentSnapshot : Bool)
    (maxTargetsSize : Nat) :
    ∀ fuel : Nat,
      (∀ (delegation : Delegations) (ds : Datastore)
        (out : Delegations × List FetchCall × Datastore),
        load_delegations verifyDelegation verifyPathsOk fetchRole snapshot
          consistentSnapshot maxTargetsSize fuel delegation ds = .ok out →
        ∀ c ∈ out.2.1, c.kind = .maxSize ∧ c.cap = maxTargetsSize ∧
          c.specifier = "max_targets_size parameter")
      ∧ (∀ (fetched : List (String × Option STargets)) (roles : List DelegatedRole)
        (ds : Datastore) (out : List DelegatedRole × List FetchCall × Datastore),
        attach_delegated_roles verifyDelegation verifyPathsOk fetchRole snapshot
          consistentSnapshot maxTargetsSize fuel fetched roles ds = .ok out →
        ∀ c ∈ out.2.1, c.kind = .maxSize ∧ c.cap = maxTargetsSize ∧
          c.specifier = "max_targets_size parameter") := by
  intro fuel
  induction fuel with
  | zero =>
    constructor
    · intro delegation ds out h
      rw [load_delegations] at h
      simp at h
    · intro fetched roles ds out h
      rw [attach_delegated_roles] at h
      simp at h
  | succ fuel ih =>
    constructor
    · intro delegation ds out h c hc
      rw [load_delegations] at h
      cases h1 : fetch_delegated_roles verifyDelegation verifyPathsOk fetchRole snapshot
          consistentSnapshot maxTargetsSize delegation delegation.roles [] [] ds with
      | error e => rw [h1] at h; simp at h
      | ok p1 =>
        obtain ⟨fetched, calls, ds1⟩ := p1
        rw [h1] at h
        simp only at h
        cases h2 : attach_delegated_roles verifyDelegation verifyPathsOk fetchRole snapshot
            consistentSnapshot maxTargetsSize fuel fetched delegation.roles ds1 with
        | error e => rw [h2] at h; simp at h
        | ok p2 =>
          obtain ⟨roles1, calls1, ds2⟩ := p2
          rw [h2] at h
          simp only [Except.ok.injEq] at h
          subst h
          rcases List.mem_append.mp hc with h1c | h2c
          · rcases fetch_delegated_roles_calls verifyDelegation verifyPathsOk fetchRole
              snapshot consistentSnapshot maxTargetsSize delegation delegation.roles
              [] [] ds (fetched, calls, ds1) h1 c h1c with hin | hprop
            · exact absurd hin (List.not_mem_nil c)
            · exact hprop
          · exact ih.2 fetched delegation.roles ds1 (roles1, calls1, ds2) h2 c h2c
    · intro fetched roles ds out h c hc
      cases roles with
      | nil =>
        rw [attach_delegated_roles] at h
        simp only [Except.ok.injEq] at h
        subst h
        simp at hc
      | cons role rest =>
        rw [attach_delegated_roles] at h
        cases hm : mapRemove fetched role.name with
        | none => rw [hm] at h; simp at h
        | some p =>
          obtain ⟨payload, fetched1⟩ := p
          rw [hm] at h
          simp only at h
          cases payload with
          | some t =>
            simp only at h
            cases hd : t.delegations with
            | some d =>
              rw [hd] at h
              simp only at h
              cases h1 : load_delegations verifyDelegation verifyPathsOk fetchRole snapshot
                  consistentSnapshot maxTargetsSize fuel d ds with
              | error e => rw [h1] at h; simp at h
              | ok p1 =>
                obtain ⟨d1, calls, ds1⟩ := p1
                rw [h1] at h
                simp only at h
                cases h2 : attach_delegated_roles verifyDelegation verifyPathsOk fetchRole
                    snapshot consistentSnapshot maxTargetsSize fuel fetched1 rest ds1 with
                | error e => rw [h2] at h; simp at h
                | ok p2 =>
                  obtain ⟨roles1, calls1, ds2⟩ := p2
                  rw [h2] at h
                  simp only [Except.ok.injEq] at h
                  subst h
                  rcases List.mem_append.mp hc with hcl | hcr
                  · exact ih.1 d ds (d1, calls, ds1) h1 c hcl
                  · exact ih.2 fetched1 rest ds1 (roles1, calls1, ds2) h2 c hcr
            | none =>
              rw [hd] at h
              simp only at h
              cases h2 : attach_delegated_roles verifyDelegation verifyPathsOk fetchRole
                  snapshot consistentSnapshot maxTargetsSize fuel fetched1 rest ds with
              | error e => rw [h2] at h; simp at h
              | ok p2 =>
                obtain ⟨roles1, calls1, ds1⟩ := p2
                rw [h2] at h
                simp only [Except.ok.injEq] at h
                subst h
                exact ih.2 fetched1 rest ds (roles1, calls1, ds1) h2 c hc
          | none =>
            simp only at h
            cases h2 : attach_delegated_roles verifyDelegation verifyPathsOk fetchRole
                snapshot consistentSnapshot maxTargetsSize fuel fetched1 rest ds with
            | error e => rw [h2] at h; simp at h
            | ok p2 =>
              obtain ⟨roles1, calls1, ds1⟩ := p2
              rw [h2] at h
              simp only [Except.ok.injEq] at h
              subst h
              exact ih.2 fetched1 rest ds (roles1, calls1, ds1) h2 c hc

/-- C6 (amended): every delegated role traversed during load is fetched
with `fetch_max_size` and the label `"max_targets_size parameter"`, but the
byte cap is the value `load_targets` shadows `max_targets_size` with: the
snapshot's listed length for `targets.json` when present, and the
configured `max_targets_size` only otherwise.  The same cap is used at
every depth of the delegation tree. -/
theorem delegated_roles_fetch_cap (verify : STargets → Bool)
    (verifyDelegation : Delegations → STargets → String → Bool)
    (verifyPathsOk : Delegations → Bool)
    (fetchTargets fetchRole : String → FetchOutcome STargets)
    (consistentSnapshot : Bool) (snapshot : SignedSnapshot)
    (maxTargetsSize : Nat) (now : Int)
    (expirationEnforcement : ExpirationEnforcement) (fuel : Nat) (ds : Datastore)
    (targets : STargets) (trace : List FetchCall) (ds' : Datastore)
    (tm : SnapshotMeta)
    (h : load_targets verify verifyDelegation verifyPathsOk fetchTargets fetchRole
      consistentSnapshot snapshot maxTargetsSize now expirationEnforcement fuel ds =
      .ok (targets, trace, ds'))
    (hm : snapshot.meta.lookup "targets.json" = some tm) :
    ∀ c ∈ trace.tail,
      c.kind = .maxSize ∧ c.cap = tm.length.getD maxTargetsSize ∧
        c.specifier = "max_targets_size parameter" := by
  intro c hc
  rw [load_targets, hm] at h
  simp only at h
  generalize hsz : (match tm.length with
    | some length => ((length : Nat), "snapshot.json")
    | none => (maxTargetsSize, "max_targets_size parameter")) = sized at h
  have hcap : sized.1 = tm.length.getD maxTargetsSize := by
    rw [← hsz]
    cases tm.length <;> rfl
  cases hf : fetchTargets (if consistentSnapshot then
      Nat.repr tm.version ++ ".targets.json" else "targets.json") with
  | err e => rw [hf] at h; simp at h
  | unparsable => rw [hf] at h; simp at h
  | ok tgt =>
    rw [hf] at h
    simp only at h
    by_cases hver : tgt.version = tm.version
    · rw [if_pos hver] at h
      by_cases hv : verify tgt = true
      · rw [if_pos hv] at h
        cases hrb : load_targets_rollback verify tgt ds with
        | error e => rw [hrb] at h; simp at h
        | ok u =>
          rw [hrb] at h
          simp only at h
          cases hexp : (if expirationEnforcement = ExpirationEnforcement.Safe then
              check_expired now ds tgt.expires .Targets
            else .ok ds) with
          | error e => rw [hexp] at h; simp at h
          | ok ds1 =>
            rw [hexp] at h
            simp only at h
            cases hd : tgt.delegations with
            | none =>
              rw [hd] at h
              simp only [Except.ok.injEq, Prod.mk.injEq] at h
              obtain ⟨h1, h2, h3⟩ := h
              subst h2
              simp at hc
            | some d =>
              rw [hd] at h
              simp only at h
              cases hld : load_delegations verifyDelegation verifyPathsOk fetchRole
                  snapshot consistentSnapshot sized.1 fuel d
                  (ds1.create "targets.json" (.targetsFile (some tgt))) with
              | error e => rw [hld] at h; simp at h
              | ok p =>
                obtain ⟨d1, calls, ds3⟩ := p
                rw [hld] at h
                simp only [Except.ok.injEq, Prod.mk.injEq] at h
                obtain ⟨h1, h2, h3⟩ := h
                subst h2
                have hc' : c ∈ calls := hc
                have hall := (load_delegations_calls verifyDelegation verifyPathsOk
                  fetchRole snapshot consistentSnapshot sized.1 fuel).1 d
                  (ds1.create "targets.json" (.targetsFile (some tgt)))
                  (d1, calls, ds3) hld c hc'
                rw [hcap] at hall
                exact hall
      · rw [if_neg hv] at h; simp at h
    · rw [if_neg hver] at h; simp at h

/-- The snapshot of the C6 scenario: `targets.json` carries an explicit
length `5`, and `role1.json` is a delegated targets file. -/
def c6Snapshot : SignedSnapshot :=
  ⟨1, 9, [("targets.json", ⟨1, some 5, some 9⟩), ("role1.json", ⟨1, none, none⟩)]⟩

/-- The top-level targets of the C6 scenario, delegating to `role1`. -/
def c6Targets : STargets := .mk 1 20 (some (.mk [.mk "role1" none]))

/-- The delegated role payload of the C6 scenario. -/
def c6Child : STargets := .mk 1 20 none

/-- The top-level targets after the traversal attaches `role1`'s payload. -/
def c6TargetsLoaded : STargets := .mk 1 20 (some (.mk [.mk "role1" (some c6Child)]))

/-- The fetch of `targets.json` in the C6 scenario: `fetch_sha256` capped at
the snapshot-listed length `5`, specifier `"snapshot.json"`. -/
def c6TopCall : FetchCall := ⟨.sha256, "targets.json", 5, "snapshot.json"⟩

/-- The fetch of the delegated `role1.json` in the C6 scenario. -/
def c6DelegCall : FetchCall := ⟨.maxSize, "role1.json", 5, "max_targets_size parameter"⟩

/-- The datastore after the C6 scenario's load. -/
def c6Store : Datastore :=
  ⟨[("role1.json", .targetsFile (some c6Child)),
    ("targets.json", .targetsFile (some c6Targets))]⟩

/-- C6 counterexample: with `max_targets_size` configured to `100` but the
snapshot listing length `5` for `targets.json`, the delegated role
`role1.json` is fetched with byte cap `5`, not the configured `100` — the
claim that every delegated role is fetched with the configured
`max_targets_size` as the cap is false. -/
theorem delegated_roles_fetch_cap_counterexample :
    load_targets (fun _ => true) (fun _ _ _ => true) (fun _ => true)
        (fun _ => .ok c6Targets) (fun _ => .ok c6Child) false c6Snapshot 100 0
        .Unsafe 3 ⟨[]⟩ =
      .ok (c6TargetsLoaded, [c6TopCall, c6DelegCall], c6Store)
    ∧ c6DelegCall.cap = 5
    ∧ (5 : Nat) ≠ 100 :=
  ⟨rfl, rfl, by decide⟩

/-- C6 witness: the amended theorem applied to the C6 scenario — the
delegated fetch uses `fetch_max_size`, the cap `5` listed in the snapshot
for `targets.json` (not the configured `100`), and the specifier
`"max_targets_size parameter"`. -/
theorem delegated_roles_fetch_cap_witness :
    c6DelegCall.kind = .maxSize
    ∧ c6DelegCall.cap = (Option.getD (some 5) 100 : Nat)
    ∧ c6DelegCall.specifier = "max_targets_size parameter" :=
  delegated_roles_fetch_cap (fun _ => true) (fun _ _ _ => true) (fun _ => true)
    (fun _ => .ok c6Targets) (fun _ => .ok c6Child) false c6Snapshot 100 0
    .Unsafe 3 ⟨[]⟩ c6TargetsLoaded [c6TopCall, c6DelegCall] c6Store
    ⟨1, some 5, some 9⟩ rfl rfl c6DelegCall (by simp)

end Tough
